import Mathlib

/-!
Verification development for the text-to-SQL pipeline
(`app/safety.py`, `app/graph_runner.py`): a shallow embedding of the
normalizer, the textual safety gate, the structural validator and the
validate/execute/repair/explain state machine, together with theorems
about the specified properties.

Strings are modelled as `List Char`; the Python regex substitutions used
by the source are embedded as deterministic left-to-right scanners (the
patterns involved are deterministic: every `\s*` in them is followed by a
character class disjoint from whitespace, so greedy matching needs no
backtracking search).  External collaborators (the sqlglot parser, the
DuckDB engine, the LLM generator, the dataframe renderer) are opaque
per the system design and are passed in as oracle functions.
-/

namespace Spec2Proof

abbrev Str := List Char

/-- Python whitespace characters recognised by `str.strip` / regex `\s`
(ASCII fragment). -/
def isSpace (c : Char) : Bool :=
  c = ' ' || c = '\t' || c = '\n' || c = '\r' || c = Char.ofNat 11 || c = Char.ofNat 12

/-- Regex word character `\w` (ASCII fragment), used for `\b` boundaries. -/
def isWordChar (c : Char) : Bool :=
  ('a' ≤ c && c ≤ 'z') || ('A' ≤ c && c ≤ 'Z') || ('0' ≤ c && c ≤ '9') || c = '_'

/-- ASCII lower-casing, the fragment of Python `str.lower` / `re.IGNORECASE`
relevant to the ASCII keywords handled by the code. -/
def lcChar (c : Char) : Char :=
  if 'A' ≤ c && c ≤ 'Z' then Char.ofNat (c.toNat + 32) else c

/-- Case-insensitive prefix test: the pattern (given in lower case) is a
prefix of the text up to ASCII case. -/
def prefixCI : Str → Str → Bool
  | [], _ => true
  | _ :: _, [] => false
  | p :: ps, c :: cs => (lcChar c = p) && prefixCI ps cs

/-- Python `str.lstrip()`. -/
def pyLstrip (s : Str) : Str := s.dropWhile isSpace

/-- Python `str.rstrip()`. -/
def pyRstrip (s : Str) : Str := (s.reverse.dropWhile isSpace).reverse

/-- Python `str.strip()`. -/
def pyStrip (s : Str) : Str := pyRstrip (pyLstrip s)

/-- Python `str.rstrip(";")`: drop every trailing semicolon. -/
def rstripSemis (s : Str) : Str := (s.reverse.dropWhile (fun c => decide (c = ';'))).reverse

/-- A `\b` boundary holds before the match given the previous character. -/
def okBefore : Option Char → Bool
  | none => true
  | some c => !isWordChar c

/-- A `\b` boundary holds after the match given the remaining text. -/
def okAfterTok : Str → Bool
  | [] => true
  | c :: _ => !isWordChar c

def kwSelect : Str := "select".data

/-- `re.search(r"(?is)\bselect\b[\s\S]*$", s)`: the suffix of `s` starting at
the leftmost case-insensitive word occurrence of `select`, if any.
`prev` is the character immediately before the current position. -/
def findSelect : Option Char → Str → Option Str
  | _, [] => none
  | prev, c :: rest =>
    if okBefore prev && prefixCI kwSelect (c :: rest) && okAfterTok ((c :: rest).drop 6) then
      some (c :: rest)
    else
      findSelect (some c) rest

/-- Generic embedding of `re.sub` as a fuelled left-to-right scan.
`tryM ctx s` reports a match at the head of `s` (consumed length, literal
replacement, context after the match); on no match one character is emitted
and the context advances by `step`.  Matches always consume at least one
character for the patterns used here, so `fuel = s.length` suffices. -/
def subScanC {γ : Type} (tryM : γ → Str → Option (Nat × Str × γ)) (step : γ → Char → γ) :
    Nat → γ → Str → Str
  | 0, _, s => s
  | _ + 1, _, [] => []
  | fuel + 1, ctx, c :: rest =>
    match tryM ctx (c :: rest) with
    | some (n, repl, ctx2) => repl ++ subScanC tryM step fuel ctx2 ((c :: rest).drop n)
    | none => c :: subScanC tryM step fuel (step ctx c) rest

def kwBt3 : Str := "```".data
def kwSql : Str := "sql".data

/-- Index of the last newline inside a (whitespace) run, if any. -/
def lastNlIdx (w : Str) : Option Nat :=
  match w.reverse.findIdx? (fun c => c = '\n') with
  | some j => some (w.length - 1 - j)
  | none => none

/-- Single-position matcher for
`re.sub(r"^```\s*sql\s*|^```|```\s*$", "", s, flags=IGNORECASE|MULTILINE)`.
The context records whether the position is at a line start (for `^`);
`$` in MULTILINE mode matches at end of string or just before a newline.
Alternatives are tried in the pattern's order. -/
def tryFence (atLS : Bool) (s : Str) : Option (Nat × Str × Bool) :=
  if prefixCI kwBt3 s then
    if atLS then
      let r3 := s.drop 3
      let w1 := r3.takeWhile isSpace
      let r4 := r3.drop w1.length
      if prefixCI kwSql r4 then
        let r5 := r4.drop 3
        let w2 := r5.takeWhile isSpace
        let n := 3 + w1.length + 3 + w2.length
        some (n, [], (s.take n).getLast? == some '\n')
      else
        some (3, [], false)
    else
      let r3 := s.drop 3
      let w := r3.takeWhile isSpace
      if r3.drop w.length = [] then
        some (3 + w.length, [], (s.take (3 + w.length)).getLast? == some '\n')
      else
        match lastNlIdx w with
        | some k => some (3 + k, [], (s.take (3 + k)).getLast? == some '\n')
        | none => none
  else none

/-- The code-fence stripping substitution of `normalize_sql`. -/
def fenceSub (s : Str) : Str :=
  subScanC tryFence (fun _ c => c == '\n') s.length true s

/-- Single-position matcher for `re.sub(r"\bPAT\b", repl, s, flags=IGNORECASE)`
with a fixed word pattern `pat` (given lower case). -/
def tryTok (pat repl : Str) (prev : Option Char) (s : Str) : Option (Nat × Str × Option Char) :=
  if okBefore prev && prefixCI pat s && okAfterTok (s.drop pat.length) then
    some (pat.length, repl, (s.take pat.length).getLast?)
  else none

/-- Whole-word, case-insensitive replacement of `pat` by `repl`. -/
def replTok (pat repl s : Str) : Str :=
  subScanC (tryTok pat repl) (fun _ c => some c) s.length none s

def kwInterval : Str := "interval".data
def kwWeek : Str := "week".data
def kwNow : Str := "now".data

/-- The single-quote character. -/
def quoteC : Char := Char.ofNat 39

/-- Single-position matcher for
`re.sub(r"INTERVAL\s*'\s*(\d+)\s*week\s*'", r"INTERVAL \1 WEEK", s, IGNORECASE)`. -/
def tryInterval (s : Str) : Option (Nat × Str) :=
  if prefixCI kwInterval s then
    let r1 := s.drop 8
    let w1 := r1.takeWhile isSpace
    match r1.drop w1.length with
    | c :: r3 =>
      if c = quoteC then
        let w2 := r3.takeWhile isSpace
        let r4 := r3.drop w2.length
        let ds := r4.takeWhile Char.isDigit
        if ds.length = 0 then none
        else
          let r5 := r4.drop ds.length
          let w3 := r5.takeWhile isSpace
          let r6 := r5.drop w3.length
          if prefixCI kwWeek r6 then
            let r7 := r6.drop 4
            let w4 := r7.takeWhile isSpace
            match r7.drop w4.length with
            | c2 :: _ =>
              if c2 = quoteC then
                some (8 + w1.length + 1 + w2.length + ds.length + w3.length + 4 + w4.length + 1,
                      ("INTERVAL ".data) ++ ds ++ (" WEEK".data))
              else none
            | [] => none
          else none
      else none
    | [] => none
  else none

/-- Single-position matcher for
`re.sub(r"DATE\s*'\s*now\s*'", "current_date", s, IGNORECASE)`. -/
def tryDateNow (s : Str) : Option (Nat × Str) :=
  if prefixCI ("date".data) s then
    let r1 := s.drop 4
    let w1 := r1.takeWhile isSpace
    match r1.drop w1.length with
    | c :: r3 =>
      if c = quoteC then
        let w2 := r3.takeWhile isSpace
        let r4 := r3.drop w2.length
        if prefixCI kwNow r4 then
          let r5 := r4.drop 3
          let w3 := r5.takeWhile isSpace
          match r5.drop w3.length with
          | c2 :: _ =>
            if c2 = quoteC then
              some (4 + w1.length + 1 + w2.length + 3 + w3.length + 1, "current_date".data)
            else none
          | [] => none
        else none
      else none
    | [] => none
  else none

/-- Lift a context-free matcher to the generic scanner. -/
def tryU (f : Str → Option (Nat × Str)) : Unit → Str → Option (Nat × Str × Unit) :=
  fun _ s => (f s).map (fun p => (p.1, p.2, ()))

def intervalSub (s : Str) : Str := subScanC (tryU tryInterval) (fun _ _ => ()) s.length () s

def dateNowSub (s : Str) : Str := subScanC (tryU tryDateNow) (fun _ _ => ()) s.length () s

/-- `normalize_sql` from `app/safety.py`: strip; jump to the first `select`
token if any; remove code fences / `sql` labels; drop trailing semicolons;
substitute placeholder table names; rewrite quoted week intervals and
`DATE 'now'`. -/
def normalize_sql (raw table : Str) : Str :=
  let s0 := pyStrip raw
  let s1 := match findSelect none s0 with
    | some suf => suf
    | none => s0
  let s2 := pyStrip (fenceSub s1)
  let s3 := pyStrip (rstripSemis (pyRstrip s2))
  let s4 := replTok ("your_table".data) table s3
  let s5 := replTok ("my_table".data) table s4
  let s6 := intervalSub s5
  dateNowSub s6

/-- The fixed administrative-keyword denylist of `is_safe`. -/
def bannedKeywords : List Str :=
  [("insert".data), ("update".data), ("delete".data), ("drop".data), ("alter".data),
   ("create".data), ("attach".data), ("pragma".data), ("grant".data), ("revoke".data),
   ("copy".data)]

/-- Python substring containment `pat in s`. -/
def isSubstr (pat : Str) : Str → Bool
  | [] => pat.isPrefixOf []
  | c :: rest => pat.isPrefixOf (c :: rest) || isSubstr pat rest

/-- `SAFE_SQL.match(sql.strip())`: the pattern `^\s*select\b` (IGNORECASE)
anchored at the start of the stripped text. -/
def safeSqlMatch (sql : Str) : Bool :=
  let t := (pyStrip sql).dropWhile isSpace
  prefixCI kwSelect t && okAfterTok (t.drop 6)

/-- `is_safe` from `app/safety.py`. -/
def is_safe (sql : Str) : Bool :=
  if (rstripSemis (pyStrip sql)).contains ';' then false
  else if !safeSqlMatch sql then false
  else !(bannedKeywords.any (fun b => isSubstr b (sql.map lcChar)))

/-! The graph pipeline of `app/graph_runner.py`.  Result rows are opaque
records; the sqlglot parser, the DuckDB engine and the LLM are oracles. -/

abbrev Row := List Str

/-- Outcome of `sqlglot.parse_one` as consumed by `validate_with_sqlglot`:
either a `SELECT` statement (with its table references, whether it contains
an `exp.Command` node, and its re-serialized DuckDB canonical text), or some
other statement kind. -/
inductive ParsedStmt
  | selectStmt (tableRefs : List Str) (hasCommand : Bool) (normalized : Str)
  | otherStmt
deriving DecidableEq

/-- The message of the table-mismatch validation error
(`f"Query must reference table '{table}'"`). -/
def msgTableRef (table : Str) : Str :=
  ("Query must reference table ".data) ++ [quoteC] ++ table ++ [quoteC]

/-- `validate_with_sqlglot` from `app/safety.py`, with the parser passed as
an oracle: parse; require a `SELECT`; reject embedded commands; require the
permitted table (case-insensitively) among the table references; return the
canonical DuckDB serialization. -/
def validate_with_sqlglot (parse : Str → Except Str ParsedStmt) (sql table : Str) :
    Except Str Str :=
  match parse sql with
  | .error e => .error (("sqlglot parse error: ".data) ++ e)
  | .ok .otherStmt => .error ("Only SELECT statements are allowed".data)
  | .ok (.selectStmt refs hasCmd norm) =>
    if hasCmd then .error ("Command statements are not allowed".data)
    else if (refs.map (fun t => t.map lcChar)).contains (table.map lcChar) then .ok norm
    else .error (msgTableRef table)

/-- Per-run configuration held in the graph state: permitted table, the
question, the preview limit, the repair budget and the date-column bounds
dictionary (`state["date_bounds"].get(col)`). -/
structure Config where
  table : Str
  question : Str
  limit : Nat
  max_repairs : Nat
  date_bounds : Str → Option (Option Str × Option Str)

/-- Opaque collaborators: sqlglot parsing, date-predicate extraction
(`_extract_date_predicates`, itself built on sqlglot), the two DuckDB call
shapes (scalar `COUNT(*)` fetch and dataframe fetch), the generator's raw
completions and the dataframe markdown renderer. -/
structure Oracles where
  parse : Str → Except Str ParsedStmt
  extract : Str → Option (Str × List Str)
  execCount : Str → Except Str Nat
  execQuery : Str → Except Str (List Row)
  genRaw : Str
  repairRaw : Str → Str → Str
  llmExplain : Str → Str → Str → Str
  render : List Row → Str

/-- The mutable pipeline state threaded through the graph nodes (the
fields of the `State` TypedDict that the modelled nodes read or write). -/
structure PState where
  sql : Str := []
  safe : Bool := false
  df : Option (List Row) := none
  error : Option Str := none
  repair_attempts : Nat := 0
  date_range_message : Option Str := none
  explanation : Option Str := none

def msgDateBase : Str := "Date range is not provided in the dataset.".data
def msgCoverageArrow : Str := " Available date coverage -> ".data
def msgNoRows : Str := "Query returned no rows.".data
def msgUnsafe : Str := "Generated SQL failed safety checks".data
def msgUnknownError : Str := "unknown error".data

/-- Python `sep.join(parts)`. -/
def joinSep (sep : Str) : List Str → Str
  | [] => []
  | [x] => x
  | x :: y :: rest => x ++ sep ++ joinSep sep (y :: rest)

/-- One entry of the `bounds_parts` list: if the bounds of `col` are
present with both ends non-null, the text `"<col>: <min> to <max>"`. -/
def boundsPart (cfg : Config) (col : Str) : Option Str :=
  match cfg.date_bounds col with
  | some (some mn, some mx) => some (col ++ (": ".data) ++ mn ++ (" to ".data) ++ mx)
  | _ => none

/-- The `bounds_parts` list over the referenced date columns. -/
def boundsParts (cfg : Config) (cols : List Str) : List Str :=
  cols.filterMap (boundsPart cfg)

/-- The short-circuit diagnostic message built at graph_runner lines
131-140: the base message, extended with the joined coverage text when
that text is truthy. -/
def shortCircuitMsg (cfg : Config) (cols : List Str) : Str :=
  let parts := boundsParts cfg cols
  if parts = [] then msgDateBase
  else
    let bt := joinSep ("; ".data) parts
    if bt = [] then msgDateBase else msgDateBase ++ msgCoverageArrow ++ bt

/-- The isolated date-predicate probe query text. -/
def probeSql (table pred : Str) : Str :=
  ("SELECT COUNT(*) FROM ".data) ++ table ++ (" WHERE ".data) ++ pred

/-- The tail of `validate_and_execute` that runs the full query and applies
the retroactive (fallback) date-coverage diagnostic of lines 150-158.
`logPre` carries engine calls already made (the probe, if any); the
returned list logs every engine execution in order. -/
def runFullQuery (cfg : Config) (O : Oracles) (st : PState) (sqlN : Str)
    (predOpt : Option (Str × List Str)) (logPre : List Str) : PState × List Str :=
  match O.execQuery sqlN with
  | .error e =>
    ({ st with sql := sqlN, safe := true, df := none, error := some e,
               date_range_message := none }, logPre ++ [sqlN])
  | .ok rows =>
    let drm :=
      match predOpt with
      | some (pred, cols) =>
        if pred ≠ [] ∧ rows = [] then
          let parts := boundsParts cfg cols
          if parts = [] then none
          else some (msgDateBase ++ msgCoverageArrow ++ joinSep ("; ".data) parts)
        else none
      | none => none
    ({ st with sql := sqlN, safe := true, df := some rows, error := none,
               date_range_message := drm }, logPre ++ [sqlN])

/-- The `validate_and_execute` graph node: validate with sqlglot, apply the
textual safety gate, extract date predicates, run the zero-coverage probe
and short-circuit on a zero count, otherwise execute the full query
(probe failures are swallowed).  Returns the updated state and the log of
engine executions. -/
def validate_and_execute (cfg : Config) (O : Oracles) (st : PState) : PState × List Str :=
  match validate_with_sqlglot O.parse st.sql cfg.table with
  | .error e =>
    ({ st with safe := false, df := none, error := some e, date_range_message := none }, [])
  | .ok sqlN =>
    if is_safe sqlN then
      match O.extract sqlN with
      | some (pred, cols) =>
        if pred ≠ [] then
          match O.execCount (probeSql cfg.table pred) with
          | .ok n =>
            if n = 0 then
              ({ st with sql := sqlN, safe := true, df := some [], error := none,
                         date_range_message := some (shortCircuitMsg cfg cols) },
               [probeSql cfg.table pred])
            else
              runFullQuery cfg O st sqlN (some (pred, cols)) [probeSql cfg.table pred]
          | .error _ =>
            runFullQuery cfg O st sqlN (some (pred, cols)) [probeSql cfg.table pred]
        else runFullQuery cfg O st sqlN (some (pred, cols)) []
      | none => runFullQuery cfg O st sqlN none []
    else
      ({ st with sql := sqlN, safe := false, df := none,
                 error := some msgUnsafe, date_range_message := none }, [])

/-- The conditional-edge predicate `needs_repair`. -/
def needs_repair (cfg : Config) (st : PState) : Bool :=
  st.error.isSome && decide (st.repair_attempts < cfg.max_repairs)

/-- The `repair` graph node: increment the attempt counter, obtain a new
candidate from the generator (normalized), clear error, rows and the
safety flag. -/
def repairNode (cfg : Config) (O : Oracles) (st : PState) : PState :=
  let errTxt := match st.error with
    | some e => if e = [] then msgUnknownError else e
    | none => msgUnknownError
  { st with
    repair_attempts := st.repair_attempts + 1,
    sql := normalize_sql (O.repairRaw st.sql errTxt) cfg.table,
    error := none, df := none, safe := false }

/-- The `generate` graph node applied to the initial state. -/
def generateNode (cfg : Config) (O : Oracles) : PState :=
  { sql := normalize_sql O.genRaw cfg.table, repair_attempts := 0 }

/-- The dataframe branches of the `explain` node. -/
def explainDf (cfg : Config) (O : Oracles) (st : PState) : PState × Nat :=
  match st.df with
  | none => (st, 0)
  | some rows =>
    if rows = [] then ({ st with explanation := some msgNoRows }, 0)
    else
      let preview := O.render (rows.take (min cfg.limit 10))
      let p := if preview = [] then ("(no rows)".data) else preview
      ({ st with explanation := some (pyStrip (O.llmExplain cfg.question st.sql p)) }, 1)

/-- The `explain` graph node: a truthy diagnostic message becomes the
explanation verbatim; otherwise the dataframe branches apply.  The second
component counts generator calls made by the node. -/
def explain (cfg : Config) (O : Oracles) (st : PState) : PState × Nat :=
  match st.date_range_message with
  | some m => if m ≠ [] then ({ st with explanation := some m }, 0) else explainDf cfg O st
  | none => explainDf cfg O st

/-- The graph's loop from `validate_and_execute` onwards, as the list of
states observed after each node, with fuel (the loop terminates in at most
`max_repairs` cycles but a fuel bound keeps the model structurally
recursive). -/
def runTrace (cfg : Config) (O : Oracles) : Nat → PState → List PState
  | 0, _ => []
  | fuel + 1, st =>
    let st1 := (validate_and_execute cfg O st).1
    if needs_repair cfg st1 then
      let st2 := repairNode cfg O st1
      st1 :: st2 :: runTrace cfg O fuel st2
    else
      [st1, (explain cfg O st1).1]

/-- The whole pipeline run: the state after `generate` followed by the loop
trace. -/
def pipelineTrace (cfg : Config) (O : Oracles) (fuel : Nat) : List PState :=
  generateNode cfg O :: runTrace cfg O fuel (generateNode cfg O)

/-! Identity conditions for the normalizer stages: each regex substitution
is the identity on a string in which its pattern matches nowhere.  The
nowhere-conditions are decidable scans over all suffixes. -/

/-- No position of `s` matches the fence pattern (in either line-start
context). -/
def fenceNowhere (s : Str) : Bool :=
  s.tails.all (fun t => (tryFence true t).isNone && (tryFence false t).isNone)

/-- No position of `s` carries a case-insensitive occurrence of the word
`pat` with a `\b` boundary after it (hence none with both boundaries). -/
def tokNowhere (pat s : Str) : Bool :=
  s.tails.all (fun t => !(prefixCI pat t && okAfterTok (t.drop pat.length)))

/-- No position of `s` matches the quoted-interval pattern. -/
def intervalNowhere (s : Str) : Bool := s.tails.all (fun t => (tryInterval t).isNone)

/-- No position of `s` matches the `DATE` of `now` pattern. -/
def dateNowNowhere (s : Str) : Bool := s.tails.all (fun t => (tryDateNow t).isNone)

/-- A regex-substitution scan whose matcher fires at no suffix of `s` is the
identity on `s`. -/
theorem subScanC_id {γ : Type} (tryM : γ → Str → Option (Nat × Str × γ)) (step : γ → Char → γ)
    (fuel : Nat) (ctx : γ) (s : Str)
    (h : ∀ ctx2 t, t <:+ s → tryM ctx2 t = none) :
    subScanC tryM step fuel ctx s = s := by
  induction fuel generalizing ctx s with
  | zero => rfl
  | succ n ih =>
    cases s with
    | nil => rfl
    | cons c rest =>
      have h0 := h ctx (c :: rest) (List.suffix_refl _)
      simp only [subScanC, h0]
      exact congrArg (List.cons c)
        (ih (step ctx c) rest (fun ctx2 t ht => h ctx2 t (ht.trans (List.suffix_cons c rest))))

theorem fenceSub_id (s : Str) (h : fenceNowhere s = true) : fenceSub s = s := by
  apply subScanC_id
  intro ctx2 t ht
  have h2 := List.all_eq_true.mp h t ((List.mem_tails t s).mpr ht)
  simp only [Bool.and_eq_true, Option.isNone_iff_eq_none] at h2
  cases ctx2
  · exact h2.2
  · exact h2.1

theorem replTok_id (pat repl s : Str) (h : tokNowhere pat s = true) : replTok pat repl s = s := by
  apply subScanC_id
  intro prev t ht
  have h2 := List.all_eq_true.mp h t ((List.mem_tails t s).mpr ht)
  rw [Bool.not_eq_true'] at h2
  simp [tryTok, Bool.and_assoc, h2]

theorem intervalSub_id (s : Str) (h : intervalNowhere s = true) : intervalSub s = s := by
  apply subScanC_id
  intro ctx2 t ht
  have h2 := List.all_eq_true.mp h t ((List.mem_tails t s).mpr ht)
  simp [tryU, Option.isNone_iff_eq_none.mp h2]

theorem dateNowSub_id (s : Str) (h : dateNowNowhere s = true) : dateNowSub s = s := by
  apply subScanC_id
  intro ctx2 t ht
  have h2 := List.all_eq_true.mp h t ((List.mem_tails t s).mpr ht)
  simp [tryU, Option.isNone_iff_eq_none.mp h2]

/-- The end conditions making the strip stages the identity: the first
character is not whitespace, and the last character is neither whitespace
nor a semicolon. -/
def okEnds (o : Str) : Bool :=
  (Option.all (fun c => !isSpace c) o.head?) &&
  (Option.all (fun c => !isSpace c && !decide (c = ';')) o.getLast?)

theorem revDropWhile_id (p : Char → Bool) (o : Str)
    (h : ∀ c, o.getLast? = some c → p c = false) :
    (o.reverse.dropWhile p).reverse = o := by
  rcases List.eq_nil_or_concat o with rfl | ⟨ys, y, rfl⟩
  · rfl
  · have hy : p y = false := h y (by simp)
    simp [List.dropWhile_cons, hy]

theorem okEnds_strips (o : Str) (h : okEnds o = true) :
    pyLstrip o = o ∧ pyRstrip o = o ∧ rstripSemis o = o ∧ pyStrip o = o := by
  simp only [okEnds, Bool.and_eq_true] at h
  obtain ⟨h1, h2⟩ := h
  have hl : pyLstrip o = o := by
    cases o with
    | nil => rfl
    | cons c rest =>
      simp only [List.head?_cons, Option.all_some, Bool.not_eq_true'] at h1
      simp [pyLstrip, List.dropWhile_cons, h1]
  have hr : pyRstrip o = o := by
    apply revDropWhile_id
    intro c hc
    rw [hc] at h2
    simp only [Option.all_some, Bool.and_eq_true, Bool.not_eq_true'] at h2
    exact h2.1
  have hs : rstripSemis o = o := by
    apply revDropWhile_id
    intro c hc
    rw [hc] at h2
    simp only [Option.all_some, Bool.and_eq_true, Bool.not_eq_true'] at h2
    exact h2.2
  exact ⟨hl, hr, hs, by rw [pyStrip, hl, hr]⟩

def ytTok : Str := "your_table".data
def mtTok : Str := "my_table".data

/-- Every stage after select-extraction fixes `o`: good end characters and
no occurrence of any of the rewrite patterns. -/
def stageFix (o : Str) : Bool :=
  okEnds o && fenceNowhere o && tokNowhere ytTok o && tokNowhere mtTok o &&
  intervalNowhere o && dateNowNowhere o

/-- A normalizer fixed point: the post-select stages fix `o`, and the
select-token search either matches at position 0 or does not match. -/
def normStable (o : Str) : Bool :=
  stageFix o && (decide (findSelect none o = some o) || decide (findSelect none o = none))

theorem stageFix_parts (o : Str) (h : stageFix o = true) :
    okEnds o = true ∧ fenceNowhere o = true ∧ tokNowhere ytTok o = true ∧
    tokNowhere mtTok o = true ∧ intervalNowhere o = true ∧ dateNowNowhere o = true := by
  simp only [stageFix, Bool.and_eq_true] at h
  exact ⟨h.1.1.1.1.1, h.1.1.1.1.2, h.1.1.1.2, h.1.1.2, h.1.2, h.2⟩

/-- Strings satisfying `normStable` are fixed points of the normalizer. -/
theorem normalize_sql_fixed (table o : Str) (h : normStable o = true) :
    normalize_sql o table = o := by
  simp only [normStable, Bool.and_eq_true, Bool.or_eq_true, decide_eq_true_eq] at h
  obtain ⟨hf, hsel⟩ := h
  obtain ⟨hends, hfence, hyt, hmt, hintv, hdn⟩ := stageFix_parts o hf
  obtain ⟨-, hr, hsemi, hstrip⟩ := okEnds_strips o hends
  have e1 : normalize_sql o table =
      dateNowSub (intervalSub (replTok mtTok table (replTok ytTok table
        (pyStrip (rstripSemis (pyRstrip (pyStrip (fenceSub
          (match findSelect none (pyStrip o) with
           | some suf => suf
           | none => pyStrip o))))))))) := rfl
  rw [e1, hstrip]
  rcases hsel with hs1 | hs1 <;>
    simp only [hs1] <;>
    rw [fenceSub_id o hfence, hstrip, hr, hsemi, hstrip,
        replTok_id ytTok table o hyt, replTok_id mtTok table o hmt,
        intervalSub_id o hintv, dateNowSub_id o hdn]

/-! Facts about the diagnostic message shapes. -/

theorem boundsPart_ne_nil (cfg : Config) (col x : Str)
    (h : boundsPart cfg col = some x) : x ≠ [] := by
  unfold boundsPart at h
  rcases hb : cfg.date_bounds col with - | ⟨- | mn, - | mx⟩ <;> rw [hb] at h <;> simp at h
  intro hnil
  rw [← h] at hnil
  simp at hnil

theorem boundsParts_all_ne_nil (cfg : Config) (cols : List Str) :
    ∀ x ∈ boundsParts cfg cols, x ≠ [] := by
  intro x hx
  simp only [boundsParts, List.mem_filterMap] at hx
  obtain ⟨col, -, hcol⟩ := hx
  exact boundsPart_ne_nil cfg col x hcol

theorem joinSep_ne_nil (sep : Str) (parts : List Str)
    (hne : parts ≠ []) (hall : ∀ x ∈ parts, x ≠ []) :
    joinSep sep parts ≠ [] := by
  match parts with
  | [] => exact absurd rfl hne
  | [x] => exact hall x (by simp)
  | x :: y :: rest =>
    simp only [joinSep]
    intro hnil
    have h1 := (List.append_eq_nil.mp hnil).1
    have h2 := (List.append_eq_nil.mp h1).1
    exact hall x (by simp) h2

/-- The short-circuit diagnostic equals the base message alone when no
referenced column has full bounds, and the base message plus the joined
coverage text otherwise. -/
theorem shortCircuitMsg_eq (cfg : Config) (cols : List Str) :
    shortCircuitMsg cfg cols =
      if boundsParts cfg cols = [] then msgDateBase
      else msgDateBase ++ msgCoverageArrow ++ joinSep (("; ").data) (boundsParts cfg cols) := by
  unfold shortCircuitMsg
  by_cases hp : boundsParts cfg cols = []
  · simp [hp]
  · rw [if_neg hp, if_neg hp]
    rw [if_neg (joinSep_ne_nil _ _ hp (boundsParts_all_ne_nil cfg cols))]

theorem shortCircuitMsg_ne_nil (cfg : Config) (cols : List Str) :
    shortCircuitMsg cfg cols ≠ [] := by
  rw [shortCircuitMsg_eq]
  split
  · decide
  · intro hnil
    have h1 := (List.append_eq_nil.mp (List.append_eq_nil.mp hnil).1).1
    revert h1
    decide

/-! Claim theorems. -/

/-- C1: every candidate text containing one of the denylisted
administrative keywords (insert, update, delete, drop, alter, create,
attach, pragma, grant, revoke, copy) as a substring of its lowercased
form — hence in any casing, anywhere, regardless of surrounding
structure — is rejected by `is_safe`. -/
theorem C1_banned_keyword_unsafe (sql : Str)
    (h : ∃ b ∈ bannedKeywords, isSubstr b (sql.map lcChar) = true) :
    is_safe sql = false := by
  obtain ⟨b, hb, hsub⟩ := h
  have hany : bannedKeywords.any (fun b => isSubstr b (sql.map lcChar)) = true :=
    List.any_eq_true.mpr ⟨b, hb, hsub⟩
  unfold is_safe
  split
  · rfl
  · split
    · rfl
    · simp [hany]

/-- C1 witness: a concrete INSERT statement contains a denylisted keyword
and is rejected. -/
theorem C1_banned_keyword_unsafe_witness :
    (∃ b ∈ bannedKeywords, isSubstr b ((("Insert INTO data VALUES (1)").data).map lcChar) = true) ∧
    is_safe (("Insert INTO data VALUES (1)").data) = false :=
  ⟨by decide, C1_banned_keyword_unsafe _ (by decide)⟩

/-- C7 counterexample: the text "select 1;;" has a semicolon before its
final position (the first of the two trailing semicolons), yet `is_safe`
accepts it, because the gate strips the whole trailing semicolon run
before checking. -/
theorem C7_counterexample : is_safe (("select 1;;").data) = true := by decide

/-- C7 amended: the gate rejects every text in which a semicolon survives
stripping surrounding whitespace and the entire trailing run of
semicolons — i.e. any semicolon other than trailing ones (the code drops
all trailing semicolons, not just a single one, before the
multi-statement check). -/
theorem C7_semicolon_rejected (sql : Str)
    (h : (rstripSemis (pyStrip sql)).contains ';' = true) :
    is_safe sql = false := by
  unfold is_safe
  rw [if_pos h]

/-- C7 witness: a two-statement text is rejected. -/
theorem C7_semicolon_rejected_witness :
    (rstripSemis (pyStrip (("select 1; select 2").data))).contains ';' = true ∧
    is_safe (("select 1; select 2").data) = false :=
  ⟨by decide, C7_semicolon_rejected _ (by decide)⟩

/-- C9 counterexample: "drop table t;" contains no select token, but the
normalizer does not return the trimmed original — it still strips the
trailing semicolon. -/
theorem C9_counterexample :
    findSelect none (pyStrip (("drop table t;").data)) = none ∧
    normalize_sql (("drop table t;").data) (("data").data) ≠
      pyStrip (("drop table t;").data) :=
  ⟨by decide, by decide⟩

/-- C9 amended: when no select token is found, only the select-extraction
step is skipped: the remaining transforms (code-fence removal,
trailing-semicolon strip, placeholder replacement, interval and date
rewrites) still run on the trimmed text; in particular the trimmed text
is returned unchanged exactly when none of those transforms applies
(`stageFix`), and there is no error condition. -/
theorem C9_no_select_behavior (raw table : Str)
    (h : findSelect none (pyStrip raw) = none) :
    normalize_sql raw table =
      dateNowSub (intervalSub (replTok mtTok table (replTok ytTok table
        (pyStrip (rstripSemis (pyRstrip (pyStrip (fenceSub (pyStrip raw))))))))) ∧
    (stageFix (pyStrip raw) = true → normalize_sql raw table = pyStrip raw) := by
  have e1 : normalize_sql raw table =
      dateNowSub (intervalSub (replTok mtTok table (replTok ytTok table
        (pyStrip (rstripSemis (pyRstrip (pyStrip (fenceSub
          (match findSelect none (pyStrip raw) with
           | some suf => suf
           | none => pyStrip raw))))))))) := rfl
  constructor
  · rw [e1]
    simp only [h]
  · intro hf
    obtain ⟨hends, hfence, hyt, hmt, hintv, hdn⟩ := stageFix_parts _ hf
    obtain ⟨-, hrr, hsemi, hstrip⟩ := okEnds_strips _ hends
    rw [e1]
    simp only [h]
    rw [fenceSub_id _ hfence, hstrip, hrr, hsemi, hstrip,
        replTok_id ytTok table _ hyt, replTok_id mtTok table _ hmt,
        intervalSub_id _ hintv, dateNowSub_id _ hdn]

/-- C9 witness: a select-free text on which none of the remaining
transforms applies comes back trimmed and otherwise unchanged. -/
theorem C9_no_select_behavior_witness :
    findSelect none (pyStrip ((" show tables ").data)) = none ∧
    stageFix (pyStrip ((" show tables ").data)) = true ∧
    normalize_sql ((" show tables ").data) (("data").data) =
      pyStrip ((" show tables ").data) :=
  ⟨by decide, by decide, (C9_no_select_behavior _ _ (by decide)).2 (by decide)⟩

/-- C8 counterexample: a raw text that leaves a code fence in the first
output is not normalized idempotently: the first pass gives "```rest",
the second strips the now line-initial fence and gives "rest". -/
theorem C8_counterexample :
    normalize_sql (normalize_sql (("```sql ```rest").data) (("data").data)) (("data").data) ≠
      normalize_sql (("```sql ```rest").data) (("data").data) := by decide

/-- C8 amended: the normalizer is idempotent on every input whose first
output is a normalizer fixed-point configuration (`normStable`: stripped
ends with no trailing semicolon, the select-token search matches at the
start or nowhere, and no occurrence of the fence, placeholder-table,
quoted-interval or DATE-now patterns remains) — which holds for
representative generator outputs; it is not idempotent in general, as
inputs that leave a code fence in the output show. -/
theorem C8_idempotent_on_stable (raw table : Str)
    (h : normStable (normalize_sql raw table) = true) :
    normalize_sql (normalize_sql raw table) table = normalize_sql raw table :=
  normalize_sql_fixed table _ h

def repRaw : Str :=
  ("Sure!\n```sql\nSELECT product, SUM(revenue) FROM your_table GROUP BY product LIMIT 20;\n```").data

/-- C8 witness: a representative raw generator output (prose, fences,
placeholder table, trailing semicolon) has a stable first output and is
normalized idempotently. -/
theorem C8_idempotent_on_stable_witness :
    normStable (normalize_sql repRaw (("data").data)) = true ∧
    normalize_sql (normalize_sql repRaw (("data").data)) (("data").data) =
      normalize_sql repRaw (("data").data) :=
  ⟨by decide, C8_idempotent_on_stable repRaw _ (by decide)⟩

/-- C3: a structurally valid SELECT whose collected table references do
not contain the permitted table (case-insensitively) fails validation
with the table-mismatch error, the error is recorded in the state, the
safety flag stays false, no rows are produced, and no engine execution
happens. -/
theorem C3_table_mismatch (cfg : Config) (O : Oracles) (st : PState)
    (refs : List Str) (norm : Str)
    (hp : O.parse st.sql = .ok (.selectStmt refs false norm))
    (hm : ∀ r ∈ refs, r.map lcChar ≠ cfg.table.map lcChar) :
    validate_with_sqlglot O.parse st.sql cfg.table = .error (msgTableRef cfg.table) ∧
    (validate_and_execute cfg O st).1.error = some (msgTableRef cfg.table) ∧
    (validate_and_execute cfg O st).1.safe = false ∧
    (validate_and_execute cfg O st).1.df = none ∧
    (validate_and_execute cfg O st).2 = [] := by
  have hv : validate_with_sqlglot O.parse st.sql cfg.table = .error (msgTableRef cfg.table) := by
    unfold validate_with_sqlglot
    rw [hp]
    simp
    exact fun r hr => hm r hr
  refine ⟨hv, ?_, ?_, ?_, ?_⟩ <;> (unfold validate_and_execute; rw [hv])

def tData : Str := ("data").data

def cfg0 : Config :=
  { table := tData
    question := ("total revenue by product").data
    limit := 5
    max_repairs := 2
    date_bounds := fun c =>
      if c = ("d").data then some (some (("2021-01-01").data), some (("2021-12-31").data))
      else none }

def O3 : Oracles :=
  { parse := fun _ => .ok (.selectStmt [("other").data] false (("SELECT 1 FROM other").data))
    extract := fun _ => none
    execCount := fun _ => .error []
    execQuery := fun _ => .ok []
    genRaw := []
    repairRaw := fun _ _ => []
    llmExplain := fun _ _ _ => []
    render := fun _ => [] }

def st3 : PState := { sql := ("SELECT 1 FROM other").data }

/-- C3 witness: a SELECT referencing only table "other" under permitted
table "data" is rejected with the mismatch error and nothing executes. -/
theorem C3_table_mismatch_witness :
    O3.parse st3.sql = .ok (.selectStmt [("other").data] false (("SELECT 1 FROM other").data)) ∧
    (∀ r ∈ [("other").data], r.map lcChar ≠ tData.map lcChar) ∧
    (validate_and_execute cfg0 O3 st3).1.error = some (msgTableRef tData) ∧
    (validate_and_execute cfg0 O3 st3).2 = [] :=
  ⟨rfl, by decide,
   (C3_table_mismatch cfg0 O3 st3 _ _ rfl (by decide)).2.1,
   (C3_table_mismatch cfg0 O3 st3 _ _ rfl (by decide)).2.2.2.2⟩

/-- C4: for a validated, safety-passed query with a truthy extracted date
predicate, a zero count from the isolated-predicate probe short-circuits
the node: empty result, no error, the diagnostic message equal to the base
text plus, when some referenced column has full bounds, the coverage text
joining each "<col>: <min> to <max>" with semicolons; only the probe is
executed (the full query is not), and the explain stage returns the
diagnostic verbatim with no generator call. -/
theorem C4_zero_probe_short_circuit (cfg : Config) (O : Oracles) (st : PState)
    (sqlN pred : Str) (cols : List Str)
    (hv : validate_with_sqlglot O.parse st.sql cfg.table = .ok sqlN)
    (hs : is_safe sqlN = true)
    (he : O.extract sqlN = some (pred, cols))
    (hpne : pred ≠ [])
    (hz : O.execCount (probeSql cfg.table pred) = .ok 0) :
    (validate_and_execute cfg O st).1.df = some [] ∧
    (validate_and_execute cfg O st).1.error = none ∧
    (validate_and_execute cfg O st).1.date_range_message =
      some (if boundsParts cfg cols = [] then msgDateBase
            else msgDateBase ++ msgCoverageArrow ++ joinSep (("; ").data) (boundsParts cfg cols)) ∧
    (validate_and_execute cfg O st).2 = [probeSql cfg.table pred] ∧
    (explain cfg O (validate_and_execute cfg O st).1).1.explanation =
      some (shortCircuitMsg cfg cols) ∧
    (explain cfg O (validate_and_execute cfg O st).1).2 = 0 := by
  have hV : validate_and_execute cfg O st =
      ({ st with sql := sqlN, safe := true, df := some [], error := none,
                 date_range_message := some (shortCircuitMsg cfg cols) },
       [probeSql cfg.table pred]) := by
    unfold validate_and_execute
    rw [hv]
    simp [hs, he, hz, hpne]
  rw [hV]
  refine ⟨rfl, rfl, ?_, rfl, ?_, ?_⟩
  · rw [← shortCircuitMsg_eq]
  · unfold explain
    simp [shortCircuitMsg_ne_nil]
  · unfold explain
    simp [shortCircuitMsg_ne_nil]

def qNorm4 : Str := ("SELECT * FROM data WHERE d >= x").data
def pred4 : Str := ("d >= x").data

def O4 : Oracles :=
  { parse := fun _ => .ok (.selectStmt [tData] false qNorm4)
    extract := fun _ => some (pred4, [("d").data])
    execCount := fun _ => .ok 0
    execQuery := fun _ => .ok [[("r").data]]
    genRaw := qNorm4
    repairRaw := fun _ _ => qNorm4
    llmExplain := fun _ _ _ => ("fine").data
    render := fun _ => ("|t|").data }

def st4 : PState := { sql := qNorm4 }

/-- C4 witness: the probe counts zero rows for the isolated predicate on
column "d" (bounds 2021-01-01 to 2021-12-31): the run short-circuits with
the diagnostic carrying the bounds text, executes only the probe, and the
explain stage makes no generator call. -/
theorem C4_zero_probe_short_circuit_witness :
    validate_with_sqlglot O4.parse st4.sql cfg0.table = .ok qNorm4 ∧
    is_safe qNorm4 = true ∧
    O4.extract qNorm4 = some (pred4, [("d").data]) ∧
    O4.execCount (probeSql cfg0.table pred4) = .ok 0 ∧
    (validate_and_execute cfg0 O4 st4).1.df = some [] ∧
    (validate_and_execute cfg0 O4 st4).1.error = none ∧
    (validate_and_execute cfg0 O4 st4).1.date_range_message =
      some (("Date range is not provided in the dataset. Available date coverage -> d: 2021-01-01 to 2021-12-31").data) ∧
    (validate_and_execute cfg0 O4 st4).2 = [probeSql cfg0.table pred4] ∧
    (explain cfg0 O4 (validate_and_execute cfg0 O4 st4).1).2 = 0 := by
  have h := C4_zero_probe_short_circuit cfg0 O4 st4 qNorm4 pred4 [("d").data]
    rfl (by decide) rfl (by decide) rfl
  refine ⟨rfl, by decide, rfl, rfl, h.1, h.2.1, ?_, h.2.2.2.1, h.2.2.2.2.2⟩
  rw [h.2.2.1]
  decide

/-- C5: in the explain stage, a truthy diagnostic message becomes the
explanation verbatim with no generator call; otherwise a present empty
result yields the fixed no-rows message with no generator call; otherwise
a present nonempty result is previewed (first `min(limit, 10)` rows,
rendered, with a placeholder when the rendering is empty) and passed with
the question and final SQL to the generator, whose output, stripped of
surrounding whitespace, becomes the explanation (exactly one call). -/
theorem C5_explain_stage (cfg : Config) (O : Oracles) (st : PState) :
    (∀ m, st.date_range_message = some m → m ≠ [] →
      (explain cfg O st).1.explanation = some m ∧ (explain cfg O st).2 = 0) ∧
    ((st.date_range_message = none ∨ st.date_range_message = some []) →
      st.df = some [] →
      (explain cfg O st).1.explanation = some (("Query returned no rows.").data) ∧
      (explain cfg O st).2 = 0) ∧
    (∀ rows, (st.date_range_message = none ∨ st.date_range_message = some []) →
      st.df = some rows → rows ≠ [] →
      (explain cfg O st).1.explanation =
        some (pyStrip (O.llmExplain cfg.question st.sql
          (if O.render (rows.take (min cfg.limit 10)) = [] then (("(no rows)").data)
           else O.render (rows.take (min cfg.limit 10))))) ∧
      (explain cfg O st).2 = 1) := by
  refine ⟨?_, ?_, ?_⟩
  · intro m hm hne
    unfold explain
    rw [hm]
    simp [hne]
  · intro hd hdf
    unfold explain explainDf
    rcases hd with hd | hd <;> rw [hd, hdf] <;> simp [msgNoRows]
  · intro rows hd hdf hne
    unfold explain explainDf
    rcases hd with hd | hd <;> rw [hd, hdf] <;> simp [hne]

def st5 : PState :=
  { sql := ("SELECT 1 FROM data").data, date_range_message := some (("all good").data) }

/-- C5 witness: a state carrying a diagnostic message gets it back
verbatim as explanation with zero generator calls. -/
theorem C5_explain_stage_witness :
    st5.date_range_message = some (("all good").data) ∧ (("all good").data) ≠ [] ∧
    (explain cfg0 O3 st5).1.explanation = some (("all good").data) ∧
    (explain cfg0 O3 st5).2 = 0 := by
  have h := (C5_explain_stage cfg0 O3 st5).1 (("all good").data) rfl (by decide)
  exact ⟨rfl, by decide, h.1, h.2⟩

/-- C6: when the isolated date-predicate probe fails with any engine
error, the failure is swallowed: the full query still executes (both
engine calls are logged), the state's error and rows come solely from the
full query's outcome, and the probe's error never reaches the error
field. -/
theorem C6_probe_failure_swallowed (cfg : Config) (O : Oracles) (st : PState)
    (sqlN pred e : Str) (cols : List Str)
    (hv : validate_with_sqlglot O.parse st.sql cfg.table = .ok sqlN)
    (hs : is_safe sqlN = true)
    (he : O.extract sqlN = some (pred, cols))
    (hpne : pred ≠ [])
    (hz : O.execCount (probeSql cfg.table pred) = .error e) :
    (validate_and_execute cfg O st).2 = [probeSql cfg.table pred, sqlN] ∧
    (validate_and_execute cfg O st).1.safe = true ∧
    (validate_and_execute cfg O st).1.error =
      (match O.execQuery sqlN with
       | .ok _ => none
       | .error e2 => some e2) ∧
    (validate_and_execute cfg O st).1.df =
      (match O.execQuery sqlN with
       | .ok rows => some rows
       | .error _ => none) := by
  have hV : validate_and_execute cfg O st =
      runFullQuery cfg O st sqlN (some (pred, cols)) [probeSql cfg.table pred] := by
    unfold validate_and_execute
    rw [hv]
    simp [hs, he, hz, hpne]
  rw [hV]
  unfold runFullQuery
  rcases O.execQuery sqlN with e2 | rows <;> simp

def O6 : Oracles :=
  { parse := fun _ => .ok (.selectStmt [tData] false qNorm4)
    extract := fun _ => some (pred4, [("d").data])
    execCount := fun _ => .error (("probe boom").data)
    execQuery := fun _ => .ok [[("r").data]]
    genRaw := qNorm4
    repairRaw := fun _ _ => qNorm4
    llmExplain := fun _ _ _ => ("fine").data
    render := fun _ => ("|t|").data }

/-- C6 witness: a failing probe followed by a successful full execution
leaves no error and the full query's rows; both engine calls logged. -/
theorem C6_probe_failure_swallowed_witness :
    O6.execCount (probeSql cfg0.table pred4) = .error (("probe boom").data) ∧
    (validate_and_execute cfg0 O6 st4).2 = [probeSql cfg0.table pred4, qNorm4] ∧
    (validate_and_execute cfg0 O6 st4).1.error = none ∧
    (validate_and_execute cfg0 O6 st4).1.df = some [[("r").data]] := by
  have h := C6_probe_failure_swallowed cfg0 O6 st4 qNorm4 pred4 (("probe boom").data)
    [("d").data] rfl (by decide) rfl (by decide) rfl
  exact ⟨rfl, h.1, by rw [h.2.2.1]; rfl, by rw [h.2.2.2]; rfl⟩

/-- C10: asymmetry of the two diagnostic paths when no referenced date
column has both bounds known: if the probe count is nonzero but the full
query succeeds with zero rows, no diagnostic is produced (the fallback
needs a nonempty bounds list) and the explanation is the fixed no-rows
message; whereas a zero probe count still emits the base diagnostic
message. -/
theorem C10_diagnostic_asymmetry (cfg : Config) (O : Oracles) (st : PState)
    (sqlN pred : Str) (cols : List Str)
    (hv : validate_with_sqlglot O.parse st.sql cfg.table = .ok sqlN)
    (hs : is_safe sqlN = true)
    (he : O.extract sqlN = some (pred, cols))
    (hpne : pred ≠ [])
    (hnb : ∀ col ∈ cols, boundsPart cfg col = none) :
    (∀ n, O.execCount (probeSql cfg.table pred) = .ok n → n ≠ 0 →
      O.execQuery sqlN = .ok [] →
      (validate_and_execute cfg O st).1.date_range_message = none ∧
      (validate_and_execute cfg O st).1.error = none ∧
      (validate_and_execute cfg O st).1.df = some [] ∧
      (explain cfg O (validate_and_execute cfg O st).1).1.explanation =
        some (("Query returned no rows.").data) ∧
      (explain cfg O (validate_and_execute cfg O st).1).2 = 0) ∧
    (O.execCount (probeSql cfg.table pred) = .ok 0 →
      (validate_and_execute cfg O st).1.date_range_message = some msgDateBase) := by
  have hparts : boundsParts cfg cols = [] := List.filterMap_eq_nil_iff.mpr hnb
  constructor
  · intro n hn hnz hq
    have hV : validate_and_execute cfg O st =
        ({ st with sql := sqlN, safe := true, df := some [], error := none,
                   date_range_message := none },
         [probeSql cfg.table pred, sqlN]) := by
      unfold validate_and_execute
      rw [hv]
      simp [hs, he, hpne, hn, hnz]
      unfold runFullQuery
      rw [hq]
      simp [hpne, hparts]
    rw [hV]
    refine ⟨rfl, rfl, rfl, ?_, ?_⟩ <;> (unfold explain explainDf; simp [msgNoRows])
  · intro hz
    unfold validate_and_execute
    rw [hv]
    simp [hs, he, hpne, hz]
    rw [shortCircuitMsg_eq, if_pos hparts]

def O10 : Oracles :=
  { parse := fun _ => .ok (.selectStmt [tData] false qNorm4)
    extract := fun _ => some (pred4, [("x").data])
    execCount := fun _ => .ok 0
    execQuery := fun _ => .ok []
    genRaw := qNorm4
    repairRaw := fun _ _ => qNorm4
    llmExplain := fun _ _ _ => ("fine").data
    render := fun _ => ("|t|").data }

/-- C10 witness: referenced column "x" has no known bounds; a zero probe
count still yields the bare base diagnostic message. -/
theorem C10_diagnostic_asymmetry_witness :
    (∀ col ∈ [("x").data], boundsPart cfg0 col = none) ∧
    O10.execCount (probeSql cfg0.table pred4) = .ok 0 ∧
    (validate_and_execute cfg0 O10 st4).1.date_range_message = some msgDateBase :=
  ⟨by decide, rfl,
   (C10_diagnostic_asymmetry cfg0 O10 st4 qNorm4 pred4 [("x").data]
      rfl (by decide) rfl (by decide) (by decide)).2 rfl⟩

/-! The repair-budget invariant (C2). -/

theorem runFullQuery_attempts (cfg : Config) (O : Oracles) (st : PState) (sqlN : Str)
    (predOpt : Option (Str × List Str)) (logPre : List Str) :
    (runFullQuery cfg O st sqlN predOpt logPre).1.repair_attempts = st.repair_attempts := by
  unfold runFullQuery
  rcases O.execQuery sqlN with e | rows <;> rfl

theorem ve_attempts (cfg : Config) (O : Oracles) (st : PState) :
    (validate_and_execute cfg O st).1.repair_attempts = st.repair_attempts := by
  unfold validate_and_execute
  repeat' split
  all_goals first
    | rfl
    | apply runFullQuery_attempts

theorem explain_attempts (cfg : Config) (O : Oracles) (st : PState) :
    (explain cfg O st).1.repair_attempts = st.repair_attempts := by
  unfold explain explainDf
  repeat' split
  all_goals rfl

theorem repairNode_attempts (cfg : Config) (O : Oracles) (st : PState) :
    (repairNode cfg O st).repair_attempts = st.repair_attempts + 1 := rfl

theorem needs_repair_spec (cfg : Config) (st : PState) (h : needs_repair cfg st = true) :
    st.error.isSome = true ∧ st.repair_attempts < cfg.max_repairs := by
  simpa [needs_repair] using h

/-- One admissible evolution of the repair-attempt counter between two
consecutive observed states: unchanged, or incremented by exactly one in a
repair step, the latter only with an error present and the counter
strictly below the budget. -/
def attemptsStep (cfg : Config) (s1 s2 : PState) : Prop :=
  s2.repair_attempts = s1.repair_attempts ∨
    (s2.repair_attempts = s1.repair_attempts + 1 ∧ s1.error.isSome = true ∧
     s1.repair_attempts < cfg.max_repairs)

theorem runTrace_attempts_le (cfg : Config) (O : Oracles) (fuel : Nat) (st : PState)
    (h : st.repair_attempts ≤ cfg.max_repairs) :
    ∀ s ∈ runTrace cfg O fuel st, s.repair_attempts ≤ cfg.max_repairs := by
  induction fuel generalizing st with
  | zero => intro s hs; simp [runTrace] at hs
  | succ n ih =>
    intro s hs
    simp only [runTrace] at hs
    by_cases hnr : needs_repair cfg ((validate_and_execute cfg O st).1) = true
    · rw [if_pos hnr] at hs
      have hlt := (needs_repair_spec cfg _ hnr).2
      rcases List.mem_cons.mp hs with rfl | hs2
      · rw [ve_attempts]; exact h
      · have hrep : (repairNode cfg O ((validate_and_execute cfg O st).1)).repair_attempts ≤
            cfg.max_repairs := by
          rw [repairNode_attempts]
          omega
        rcases List.mem_cons.mp hs2 with rfl | hs3
        · exact hrep
        · exact ih _ hrep s hs3
    · rw [if_neg hnr] at hs
      rcases List.mem_cons.mp hs with rfl | hs2
      · rw [ve_attempts]; exact h
      · rcases List.mem_cons.mp hs2 with rfl | hs3
        · rw [explain_attempts, ve_attempts]; exact h
        · simp at hs3

theorem runTrace_chain (cfg : Config) (O : Oracles) (fuel : Nat) (st : PState) :
    List.Chain' (attemptsStep cfg) (st :: runTrace cfg O fuel st) := by
  induction fuel generalizing st with
  | zero => simp [runTrace]
  | succ n ih =>
    simp only [runTrace]
    by_cases hnr : needs_repair cfg ((validate_and_execute cfg O st).1) = true
    · rw [if_pos hnr]
      have hsp := needs_repair_spec cfg _ hnr
      refine List.chain'_cons.mpr ⟨Or.inl (ve_attempts cfg O st), ?_⟩
      refine List.chain'_cons.mpr ⟨Or.inr ⟨repairNode_attempts cfg O _, hsp.1, hsp.2⟩, ?_⟩
      exact ih _
    · rw [if_neg hnr]
      refine List.chain'_cons.mpr ⟨Or.inl (ve_attempts cfg O st), ?_⟩
      refine List.chain'_cons.mpr ⟨Or.inl (explain_attempts cfg O _), ?_⟩
      simp

/-- C2: over any pipeline run, the state after `generate` carries a zero
repair-attempt counter; every observed state keeps the counter at or
below the configured budget; and between consecutive observed states the
counter is unchanged or incremented by exactly one, the increment
happening only in a repair step taken with an error present and the
counter strictly below the budget. -/
theorem C2_repair_budget (cfg : Config) (O : Oracles) (fuel : Nat) :
    (pipelineTrace cfg O fuel).head? = some (generateNode cfg O) ∧
    (generateNode cfg O).repair_attempts = 0 ∧
    (∀ s ∈ pipelineTrace cfg O fuel, s.repair_attempts ≤ cfg.max_repairs) ∧
    List.Chain' (attemptsStep cfg) (pipelineTrace cfg O fuel) := by
  refine ⟨rfl, rfl, ?_, ?_⟩
  · intro s hs
    rcases List.mem_cons.mp hs with rfl | hs2
    · exact Nat.zero_le _
    · exact runTrace_attempts_le cfg O fuel _ (Nat.zero_le _) s hs2
  · exact runTrace_chain cfg O fuel (generateNode cfg O)

end Spec2Proof
